import Mathlib

/-
Verification of the two-building power-comparison backend.

The definitions below are a shallow embedding of the ingestion pipeline in
src/backend/data_loader.py and of the aggregation engine in src/backend/app.py.
Floating-point readings are modelled as rationals, a missing reading (NaN) as
none in an Option, and timestamps as natural numbers (seconds on a simplified
uniform calendar, strictly monotone in the date-time fields).
-/

namespace TwoBlock

/-! ### Column-name normalization (data_loader.normalize_column_name) -/

/-- The whitespace class of Python str.strip and of the regex backslash-s
(space, tab, newline, carriage return, vertical tab, form feed). -/
def pySpace (c : Char) : Bool :=
  c = ' ' || c = '\t' || c = '\n' || c = '\r' || c.toNat = 11 || c.toNat = 12

/-- Python str.strip: remove leading and trailing whitespace. -/
def pyStrip (l : List Char) : List Char :=
  (l.dropWhile pySpace).rdropWhile pySpace

def lastIsDigit (l : List Char) : Bool :=
  match l.getLast? with
  | some c => c.isDigit
  | none => false

/-- re.sub of a trailing whitespace-then-digits run with the empty string:
the regex matches only when the string ends in a digit, and the leftmost
match removes the maximal trailing digit run together with the maximal
whitespace run immediately before it. -/
def stripNumSuffix (l : List Char) : List Char :=
  if lastIsDigit l then (l.rdropWhile Char.isDigit).rdropWhile pySpace else l

/-- After stripping and suffix removal, the result of normalization. -/
def coreName (s : String) : List Char :=
  stripNumSuffix (pyStrip s.data)

/-- data_loader.normalize_column_name: strip, remove a trailing numeric
suffix, then append one trailing space unless the name already ends in a
space or is a reserved field name. -/
def normalize_column_name (s : String) : String :=
  let t := coreName s
  if t.getLast? = some ' ' ∨ String.mk t = "Date" ∨ String.mk t = "Time"
  then String.mk t
  else String.mk (t ++ [' '])

/-! ### Outlier cleaner (data_loader.clean_power_data)

pandas semantics captured here: mean and std skip missing values; std uses
the sample estimator (ddof 1), so with fewer than two available values the
std is NaN, the upper limit min(mean + 3 std, 50) is NaN, and the comparison
value LE NaN is false for every value, so every entry becomes missing.
With at least two available values the limit is the real number
min(mean + 3 sqrt(variance), 50); the square-root comparison is encoded
rationally by v LE mean or (v - mean)^2 LE 9 variance, an equivalence
proved in le_add_three_sqrt_iff below. -/

/-- The available (non-missing) values of a series. -/
def navals (s : List (Option ℚ)) : List ℚ := s.filterMap id

/-- Mean of a list of rationals (sum over length). -/
def qmean (l : List ℚ) : ℚ := l.sum / l.length

/-- Sample variance (pandas std squared, ddof 1); meaningful for length at least 2. -/
def svar (l : List ℚ) : ℚ :=
  ((l.map (fun v => (v - qmean l) ^ 2)).sum) / ((l.length : ℚ) - 1)

/-- The acceptance test v LE min(mean + 3 std, 50), written without a
square root: v LE 50, and v LE mean or (v - mean)^2 LE 9 variance. -/
def withinLimit (μ v2 v : ℚ) : Bool :=
  decide (v ≤ 50) && (decide (v ≤ μ) || decide ((v - μ) ^ 2 ≤ 9 * v2))

/-- data_loader.clean_power_data on an already numeric-or-missing series. -/
def clean_power_data (s : List (Option ℚ)) : List (Option ℚ) :=
  if (navals s).length < 2 then s.map (fun _ => none)
  else s.map (fun o => o.bind (fun v =>
    if withinLimit (qmean (navals s)) (svar (navals s)) v then some v else none))

/-- A raw reading before pd.to_numeric: a numeric value (including numeric
text that to_numeric parses), non-numeric text, or an already missing cell. -/
inductive RawVal where
  | num (q : ℚ)
  | text
  | missing
deriving DecidableEq

/-- pd.to_numeric with coercion of errors: non-numeric text becomes missing. -/
def to_numeric : RawVal → Option ℚ
  | .num q => some q
  | .text => none
  | .missing => none

/-- clean_power_data as called on a raw series: coercion first, then the bound. -/
def clean_power_raw (s : List RawVal) : List (Option ℚ) :=
  clean_power_data (s.map to_numeric)

/-! ### Idempotence analysis of normalize_column_name (claim C4) -/

lemma dropWhile_head?_not {p : Char → Bool} {l : List Char} {c : Char}
    (h : (l.dropWhile p).head? = some c) : p c = false := by
  have hne : l.dropWhile p ≠ [] := by
    intro he
    rw [he] at h
    simp at h
  have hd := List.head_dropWhile_not p l hne
  have hc : (l.dropWhile p).head hne = c := (List.head_eq_iff_head?_eq_some hne).mpr h
  rw [← hc]
  exact hd

lemma rdropWhile_getLast?_not {p : Char → Bool} {l : List Char} {c : Char}
    (h : (l.rdropWhile p).getLast? = some c) : p c = false := by
  rw [List.rdropWhile, List.getLast?_reverse] at h
  exact dropWhile_head?_not h

lemma head?_eq_of_isPrefix {l₁ l₂ : List Char} (h : l₁ <+: l₂) {c : Char}
    (hc : l₁.head? = some c) : l₂.head? = some c := by
  obtain ⟨u, rfl⟩ := h
  cases l₁ with
  | nil => simp at hc
  | cons a t => simpa using hc

/-- The stripped core of a name has no trailing whitespace character. -/
lemma coreName_getLast?_not_space (s : String) {c : Char}
    (h : (coreName s).getLast? = some c) : pySpace c = false := by
  unfold coreName stripNumSuffix at h
  split at h
  · exact rdropWhile_getLast?_not h
  · exact rdropWhile_getLast?_not h

/-- The stripped core of a name has no leading whitespace character. -/
lemma coreName_head?_not_space (s : String) {c : Char}
    (h : (coreName s).head? = some c) : pySpace c = false := by
  unfold coreName stripNumSuffix at h
  have base : ∀ {d : Char}, (pyStrip s.data).head? = some d → pySpace d = false := by
    intro d hd
    unfold pyStrip at hd
    exact dropWhile_head?_not (head?_eq_of_isPrefix (List.rdropWhile_prefix _ _) hd)
  split at h
  · exact base (head?_eq_of_isPrefix
      ((List.rdropWhile_prefix _ _).trans (List.rdropWhile_prefix _ _)) h)
  · exact base h

/-- Stripping a string of the shape t plus one space, where t neither starts
nor ends with whitespace, gives back t. -/
lemma pyStrip_append_space {t : List Char}
    (hhead : ∀ {c : Char}, t.head? = some c → pySpace c = false)
    (hlast : ∀ {c : Char}, t.getLast? = some c → pySpace c = false) :
    pyStrip (t ++ [' ']) = t := by
  unfold pyStrip
  cases t with
  | nil => rfl
  | cons a u =>
    have ha : pySpace a = false := hhead rfl
    rw [List.cons_append, List.dropWhile_cons_of_neg (by simp [ha]), ← List.cons_append,
      List.rdropWhile_concat_pos pySpace (a :: u) ' ' (by rfl),
      List.rdropWhile_eq_self_iff]
    intro hne
    have hl := hlast (List.getLast?_eq_getLast (a :: u) hne)
    simp [hl]

lemma normalize_eq (s : String) :
    normalize_column_name s =
      if (coreName s).getLast? = some ' ' ∨ String.mk (coreName s) = "Date" ∨
          String.mk (coreName s) = "Time"
      then String.mk (coreName s) else String.mk (coreName s ++ [' ']) := rfl

lemma coreName_mk (l : List Char) : coreName (String.mk l) = stripNumSuffix (pyStrip l) := rfl

/-- C4 is false as stated: column-name normalization is not idempotent on every
string. For the input built from A, 1, space, 2 the first pass gives the name
A1 with a trailing space, and a second pass strips the digit 1 again. -/
theorem normalize_not_idempotent :
    normalize_column_name (normalize_column_name "A1 2") ≠ normalize_column_name "A1 2" := by
  decide

/-- C4 amended: normalization is idempotent on every string whose stripped,
suffix-removed core does not itself end in a digit (in particular on all names
without a digit directly before the appended trailing space); re-normalizing
such a normalized name returns it unchanged. Moreover normalizing the name
Power followed by space and 877 and normalizing bare Power produce the same key. -/
theorem normalize_idempotent_amended :
    (∀ s : String, lastIsDigit (coreName s) = false →
        normalize_column_name (normalize_column_name s) = normalize_column_name s) ∧
    normalize_column_name "Power 877" = normalize_column_name "Power" := by
  constructor
  · intro s h
    have hsp : ¬ (coreName s).getLast? = some ' ' := by
      intro hc
      have := coreName_getLast?_not_space s hc
      simp [pySpace] at this
    rw [normalize_eq s]
    by_cases hc : (coreName s).getLast? = some ' ' ∨ String.mk (coreName s) = "Date" ∨
        String.mk (coreName s) = "Time"
    · rw [if_pos hc]
      rcases hc with hsp' | hD | hT
      · exact absurd hsp' hsp
      · rw [hD]
        decide
      · rw [hT]
        decide
    · rw [if_neg hc]
      have hcore : coreName (String.mk (coreName s ++ [' '])) = coreName s := by
        rw [coreName_mk,
          pyStrip_append_space (fun hd => coreName_head?_not_space s hd)
            (fun hd => coreName_getLast?_not_space s hd)]
        simp [stripNumSuffix, h]
      rw [normalize_eq (String.mk (coreName s ++ [' ']))]
      rw [hcore, if_neg hc]
  · decide

/-- Witness for C4 amended at a concrete name. -/
theorem normalize_idempotent_amended_witness :
    lastIsDigit (coreName "Power") = false ∧
    normalize_column_name (normalize_column_name "Power") = normalize_column_name "Power" :=
  ⟨by decide, normalize_idempotent_amended.1 "Power" (by decide)⟩

/-! ### The outlier ceiling (claims C1 and C9) -/

/-- The rational encoding of the square-root comparison agrees with the real
one: v LE mean + 3 sqrt(variance) iff v LE mean or (v - mean)^2 LE 9 variance. -/
lemma le_add_three_sqrt_iff (μ v2 v : ℚ) (h : 0 ≤ v2) :
    ((v : ℝ) ≤ (μ : ℝ) + 3 * Real.sqrt (v2 : ℝ)) ↔ (v ≤ μ ∨ (v - μ) ^ 2 ≤ 9 * v2) := by
  have hs : (0 : ℝ) ≤ Real.sqrt (v2 : ℝ) := Real.sqrt_nonneg _
  have hv2 : (0 : ℝ) ≤ (v2 : ℝ) := by exact_mod_cast h
  constructor
  · intro hle
    by_cases hv : v ≤ μ
    · exact Or.inl hv
    · right
      have hμv : (μ : ℝ) ≤ (v : ℝ) := by
        have : μ ≤ v := le_of_not_le hv
        exact_mod_cast this
      have h1 : (v : ℝ) - μ ≤ 3 * Real.sqrt (v2 : ℝ) := by linarith
      have h2 : (0 : ℝ) ≤ (v : ℝ) - μ := by linarith
      have h3 : ((v : ℝ) - μ) ^ 2 ≤ (3 * Real.sqrt (v2 : ℝ)) ^ 2 := pow_le_pow_left₀ h2 h1 2
      have h4 : (3 * Real.sqrt (v2 : ℝ)) ^ 2 = 9 * (v2 : ℝ) := by
        rw [mul_pow, Real.sq_sqrt hv2]
        norm_num
      rw [h4] at h3
      have h5 : (((v - μ) ^ 2 : ℚ) : ℝ) ≤ ((9 * v2 : ℚ) : ℝ) := by
        push_cast
        convert h3 using 2
      exact_mod_cast h5
  · intro hor
    rcases hor with hv | hsq
    · have : (v : ℝ) ≤ (μ : ℝ) := by exact_mod_cast hv
      linarith
    · by_cases hv : v ≤ μ
      · have : (v : ℝ) ≤ (μ : ℝ) := by exact_mod_cast hv
        linarith
      · have hμv : (0 : ℝ) ≤ (v : ℝ) - μ := by
          have : μ ≤ v := le_of_not_le hv
          have : (μ : ℝ) ≤ (v : ℝ) := by exact_mod_cast this
          linarith
        have h9 : ((v : ℝ) - μ) ^ 2 ≤ 9 * (v2 : ℝ) := by
          have : (((v - μ) ^ 2 : ℚ) : ℝ) ≤ ((9 * v2 : ℚ) : ℝ) := by exact_mod_cast hsq
          push_cast at this
          convert this using 2
        have hroot : (v : ℝ) - μ ≤ 3 * Real.sqrt (v2 : ℝ) := by
          have hA : (v : ℝ) - μ = Real.sqrt (((v : ℝ) - μ) ^ 2) := (Real.sqrt_sq hμv).symm
          have hB : Real.sqrt (((v : ℝ) - μ) ^ 2) ≤ Real.sqrt (9 * (v2 : ℝ)) :=
            Real.sqrt_le_sqrt h9
          have hC : Real.sqrt (9 * (v2 : ℝ)) = 3 * Real.sqrt (v2 : ℝ) := by
            rw [show (9 : ℝ) * (v2 : ℝ) = (3 : ℝ) ^ 2 * (v2 : ℝ) by norm_num,
              Real.sqrt_mul (by positivity), Real.sqrt_sq (by norm_num)]
          rw [hA]
          rw [hC] at hB
          exact hB
        linarith

lemma svar_nonneg {l : List ℚ} (h : 2 ≤ l.length) : 0 ≤ svar l := by
  unfold svar
  apply div_nonneg
  · apply List.sum_nonneg
    intro x hx
    obtain ⟨v, _, rfl⟩ := List.mem_map.mp hx
    positivity
  · have : (2 : ℚ) ≤ (l.length : ℚ) := by exact_mod_cast h
    linarith

/-- C1: on a series with at least two available values (so that the sample
standard deviation exists), clean_power_data keeps every entry whose value is
at most min(mean + 3 std, 50), replaces every strictly larger value by the
missing marker, keeps missing entries missing, and uses the mean and std of
the input series only (a single, non-iterated bound). -/
theorem clean_power_data_spec (s : List (Option ℚ)) (h : 2 ≤ (navals s).length) (i : ℕ) :
    (clean_power_data s).length = s.length ∧
    (clean_power_data s)[i]? = (s[i]?).map (fun o => o.bind (fun v =>
      if (v : ℝ) ≤
          min ((qmean (navals s) : ℝ) + 3 * Real.sqrt ((svar (navals s) : ℝ))) 50
      then some v else none)) := by
  have hnot : ¬ (navals s).length < 2 := by omega
  have key : ∀ v : ℚ,
      (withinLimit (qmean (navals s)) (svar (navals s)) v = true) ↔
      ((v : ℝ) ≤
        min ((qmean (navals s) : ℝ) + 3 * Real.sqrt ((svar (navals s) : ℝ))) 50) := by
    intro v
    rw [le_min_iff]
    unfold withinLimit
    rw [Bool.and_eq_true, Bool.or_eq_true]
    simp only [decide_eq_true_eq]
    rw [← le_add_three_sqrt_iff (qmean (navals s)) (svar (navals s)) v (svar_nonneg h)]
    constructor
    · rintro ⟨h50, hle⟩
      exact ⟨hle, by exact_mod_cast h50⟩
    · rintro ⟨hle, h50⟩
      exact ⟨by exact_mod_cast h50, hle⟩
  constructor
  · unfold clean_power_data
    rw [if_neg hnot]
    exact List.length_map _ _
  · unfold clean_power_data
    rw [if_neg hnot]
    rw [List.getElem?_map]
    cases hx : s[i]? with
    | none => rfl
    | some o =>
      cases o with
      | none => rfl
      | some v =>
        exact congrArg some (if_congr (key v) rfl rfl)

def c1Sample : List (Option ℚ) := [some 0, some 2, some 4, none, some 100]

/-- Witness for C1 at a concrete five-entry series. -/
theorem clean_power_data_spec_witness :
    2 ≤ (navals c1Sample).length ∧
    ((clean_power_data c1Sample).length = c1Sample.length ∧
     (clean_power_data c1Sample)[4]? = (c1Sample[4]?).map (fun o => o.bind (fun v =>
       if (v : ℝ) ≤
           min ((qmean (navals c1Sample) : ℝ) + 3 * Real.sqrt ((svar (navals c1Sample) : ℝ))) 50
       then some v else none))) :=
  ⟨by decide, clean_power_data_spec c1Sample (by decide) 4⟩

/-- C9: the cleaner first coerces every non-numeric reading to the missing
marker, then bounds; missing inputs stay missing, non-numeric inputs become
missing, and a numeric input either survives unchanged or becomes missing, so
the output domain is numeric-or-missing whatever the raw input contained. -/
theorem clean_power_raw_domain (s : List RawVal) (i : ℕ) :
    (clean_power_raw s).length = s.length ∧
    (s[i]? = some .missing → (clean_power_raw s)[i]? = some none) ∧
    (s[i]? = some .text → (clean_power_raw s)[i]? = some none) ∧
    (∀ q : ℚ, s[i]? = some (.num q) →
      (clean_power_raw s)[i]? = some none ∨ (clean_power_raw s)[i]? = some (some q)) := by
  unfold clean_power_raw clean_power_data
  split
  case isTrue =>
    refine ⟨by simp, ?_, ?_, ?_⟩
    · intro hx
      rw [List.getElem?_map, List.getElem?_map, hx]
      rfl
    · intro hx
      rw [List.getElem?_map, List.getElem?_map, hx]
      rfl
    · intro q hx
      left
      rw [List.getElem?_map, List.getElem?_map, hx]
      rfl
  case isFalse =>
    refine ⟨by simp, ?_, ?_, ?_⟩
    · intro hx
      rw [List.getElem?_map, List.getElem?_map, hx]
      rfl
    · intro hx
      rw [List.getElem?_map, List.getElem?_map, hx]
      rfl
    · intro q hx
      rw [List.getElem?_map, List.getElem?_map, hx]
      by_cases hw : withinLimit (qmean (navals (s.map to_numeric)))
          (svar (navals (s.map to_numeric))) q = true
      · right
        simp [to_numeric, hw]
      · left
        simp [to_numeric, hw]

def c9Sample : List RawVal := [.missing, .num 1, .num 2, .text]

/-- Witness for C9 at a concrete raw series. -/
theorem clean_power_raw_domain_witness :
    c9Sample[0]? = some .missing ∧ (clean_power_raw c9Sample)[0]? = some none ∧
    c9Sample[3]? = some .text ∧ (clean_power_raw c9Sample)[3]? = some none :=
  ⟨rfl, (clean_power_raw_domain c9Sample 0).2.1 rfl, rfl,
    (clean_power_raw_domain c9Sample 3).2.2.1 rfl⟩

/-! ### Record parsing and series assembly (claims C5 and C6) -/

/-- One raw row of a source file having Date and Time fields; the remaining
channel readings of the row are abstracted into a payload. -/
structure SrcRow (α : Type) where
  date : String
  time : String
  payload : α

/-- pd.to_datetime on date plus space plus time under the fixed
day-month-year hour:minute:second format, with coercion of errors to a
missing timestamp. The calendar is simplified to uniform 31-day months; the
encoding (in seconds) is strictly monotone in the six fields and rejects
hour values above 23, which is why a 24:00:00 time cannot be represented. -/
def parseDateTime (d t : String) : Option ℕ :=
  match d.splitOn "-", t.splitOn ":" with
  | [ds, ms, ys], [hs, mins, ss] =>
    match ds.toNat?, ms.toNat?, ys.toNat?, hs.toNat?, mins.toNat?, ss.toNat? with
    | some dd, some mm, some yy, some hh, some mi, some sec =>
      if 1 ≤ dd ∧ dd ≤ 31 ∧ 1 ≤ mm ∧ mm ≤ 12 ∧ hh ≤ 23 ∧ mi ≤ 59 ∧ sec ≤ 59 then
        some ((((yy * 12 + (mm - 1)) * 31 + (dd - 1)) * 24 + hh) * 3600 + mi * 60 + sec)
      else none
    | _, _, _, _, _, _ => none
  | _, _ => none

/-- data_loader.load_single_file on a Date/Time file: rows whose time field
equals the out-of-range marker are excluded by the mask, then each remaining
row is keyed by its parsed datetime (missing on parse failure). -/
def load_single_file {α : Type} (rows : List (SrcRow α)) : List (Option ℕ × α) :=
  (rows.filter (fun r => ! (r.time == "24:00:00"))).map
    (fun r => (parseDateTime r.date r.time, r.payload))

/-- Row order used by sort_index: compare timestamps. -/
def rowKeyLE {α : Type} : (ℕ × α) → (ℕ × α) → Prop := fun x y => x.1 ≤ y.1

instance {α : Type} : DecidableRel (@rowKeyLE α) := fun x y => Nat.decLe x.1 y.1

instance {α : Type} : IsTotal (ℕ × α) rowKeyLE := ⟨fun x y => Nat.le_total x.1 y.1⟩

instance {α : Type} : IsTrans (ℕ × α) rowKeyLE := ⟨fun _ _ _ h1 h2 => Nat.le_trans h1 h2⟩

/-- The assembly step of load_all_data: concatenate the per-file tables,
drop the rows whose timestamp failed to parse, sort ascending by timestamp. -/
def assembleCombined {α : Type} (tables : List (List (Option ℕ × α))) : List (ℕ × α) :=
  List.insertionSort rowKeyLE
    ((tables.flatten).filterMap (fun r => r.1.map (fun t => (t, r.2))))

lemma countP_filterMap_validRows {α : Type} [DecidableEq α]
    (l : List (Option ℕ × α)) (t : ℕ) (a : α) :
    (l.filterMap (fun r => r.1.map (fun u => (u, r.2)))).countP
        (fun r => decide (r = (t, a)))
      = l.countP (fun r => decide (r = (some t, a))) := by
  induction l with
  | nil => rfl
  | cons r l ih =>
    obtain ⟨o, x⟩ := r
    cases o with
    | none =>
      rw [List.filterMap_cons]
      simp only [Option.map_none']
      rw [ih, List.countP_cons]
      simp
    | some u =>
      rw [List.filterMap_cons]
      simp only [Option.map_some']
      rw [List.countP_cons, List.countP_cons, ih]
      by_cases h : u = t ∧ x = a
      · obtain ⟨rfl, rfl⟩ := h
        simp
      · have h1 : ¬ ((u, x) = (t, a)) := by simpa [Prod.ext_iff] using h
        have h2 : ¬ (((some u : Option ℕ), x) = (some t, a)) := by
          simpa [Prod.ext_iff] using h
        simp [h1, h2]

/-- C5: the assembled combined series is sorted non-decreasing by timestamp;
it contains exactly the rows whose timestamp parsed, with multiplicity (so
two files contributing a reading at the same timestamp keep both rows,
without deduplication); and the resulting multiset does not depend on the
order in which the per-file tables arrive. -/
theorem assembleCombined_spec {α : Type} [DecidableEq α]
    (tables tables₂ : List (List (Option ℕ × α))) :
    (assembleCombined tables).Sorted rowKeyLE ∧
    (∀ (t : ℕ) (a : α), (assembleCombined tables).countP (fun r => decide (r = (t, a)))
        = (tables.map (fun tb => tb.countP (fun r => decide (r = (some t, a))))).sum) ∧
    (tables.Perm tables₂ → (assembleCombined tables).Perm (assembleCombined tables₂)) := by
  refine ⟨List.sorted_insertionSort _ _, ?_, ?_⟩
  · intro t a
    unfold assembleCombined
    rw [(List.perm_insertionSort (@rowKeyLE α) _).countP_eq,
      countP_filterMap_validRows, List.countP_flatten]
  · intro hperm
    have h1 := List.perm_insertionSort (@rowKeyLE α)
      ((tables.flatten).filterMap (fun r => r.1.map (fun u => (u, r.2))))
    have h2 := List.perm_insertionSort (@rowKeyLE α)
      ((tables₂.flatten).filterMap (fun r => r.1.map (fun u => (u, r.2))))
    exact h1.trans ((hperm.flatten.filterMap _).trans h2.symm)

def c5TableOne : List (Option ℕ × Bool) := [(some 5, true), (none, false), (some 3, true)]

def c5TableTwo : List (Option ℕ × Bool) := [(some 5, true)]

/-- Witness for C5: the order-independence clause at two concrete tables. -/
theorem assembleCombined_spec_witness :
    [c5TableOne, c5TableTwo].Perm [c5TableTwo, c5TableOne] ∧
    (assembleCombined [c5TableOne, c5TableTwo]).Perm
      (assembleCombined [c5TableTwo, c5TableOne]) :=
  ⟨List.Perm.swap c5TableTwo c5TableOne [],
   (assembleCombined_spec [c5TableOne, c5TableTwo] [c5TableTwo, c5TableOne]).2.2
     (List.Perm.swap c5TableTwo c5TableOne [])⟩

lemma load_single_file_filter_marker {α : Type} (rows : List (SrcRow α)) :
    load_single_file (rows.filter (fun r => ! (r.time == "24:00:00")))
      = load_single_file rows := by
  unfold load_single_file
  rw [List.filter_filter]
  simp [Bool.and_self]

/-- C6: every row whose time field equals the literal 24:00:00 is excluded
before datetime construction; removing all such rows from the source files
leaves the combined series unchanged, and each loaded table has exactly one
row per retained source row. -/
theorem time2400_excluded {α : Type} (files : List (List (SrcRow α)))
    (rows : List (SrcRow α)) :
    assembleCombined (files.map (fun rs => load_single_file rs))
      = assembleCombined (files.map (fun rs =>
          load_single_file (rs.filter (fun r => ! (r.time == "24:00:00"))))) ∧
    (load_single_file rows).length
      = (rows.filter (fun r => ! (r.time == "24:00:00"))).length := by
  constructor
  · have hmap : ∀ rs ∈ files, load_single_file rs
        = load_single_file (rs.filter (fun r => ! (r.time == "24:00:00"))) :=
      fun rs _ => (load_single_file_filter_marker rs).symm
    rw [List.map_congr_left hmap]
  · unfold load_single_file
    rw [List.length_map]

/-! ### Aggregation engine (claims C2, C3, C7, C10)

A cached power series is a list of timestamp-reading pairs in which a reading
may be missing. A query filter is an arbitrary boolean mask over timestamps
(the source builds it from month, date-range, day-of-week and year request
parameters and combines the predicates by conjunction). -/

/-- hour component of an engine timestamp (seconds encoding). -/
def hourOfDay (t : ℕ) : ℕ := t / 3600 % 24

/-- day-of-week index of an engine timestamp (day number modulo 7). -/
def dayOfWeek (t : ℕ) : ℕ := t / 86400 % 7

/-- Boolean-mask filtering of a series, power[mask]. -/
def applyMask (m : ℕ → Bool) (s : List (ℕ × Option ℚ)) : List (ℕ × Option ℚ) :=
  s.filter (fun r => m r.1)

/-- pandas dropna: keep only rows with an available reading. -/
def dropna (s : List (ℕ × Option ℚ)) : List (ℕ × ℚ) :=
  s.filterMap (fun r => r.2.map (fun v => (r.1, v)))

/-- The summary-metrics record of app.get_summary (rounding of the source,
a pure presentation step, is omitted). -/
structure Metrics where
  avgPower : ℚ
  maxPower : ℚ
  minPower : ℚ
  weekdayAvg : ℚ
  weekendAvg : ℚ
  dataCoverage : ℚ
  loadFactor : ℚ
  peakToAvg : ℚ
  totalEnergyKwh : ℚ
  estimatedDailyKwh : ℚ
  estimatedMonthlyKwh : ℚ
deriving DecidableEq

/-- The all-zero record returned for an empty filtered series. -/
def zeroMetrics : Metrics :=
  { avgPower := 0, maxPower := 0, minPower := 0, weekdayAvg := 0, weekendAvg := 0,
    dataCoverage := 0, loadFactor := 0, peakToAvg := 0, totalEnergyKwh := 0,
    estimatedDailyKwh := 0, estimatedMonthlyKwh := 0 }

/-- app.calc_metrics on a non-empty list of values: its maximum. -/
def qmax : List ℚ → ℚ
  | [] => 0
  | a :: l => l.foldl max a

/-- Minimum of the positive values, 0 when none are positive. -/
def qminPos (l : List ℚ) : ℚ :=
  match l.filter (fun v => decide (0 < v)) with
  | [] => 0
  | a :: pos => pos.foldl min a

/-- Mean of a list guarded by emptiness: pandas mean of an empty series is
NaN, modelled as none. -/
def omean (l : List ℚ) : Option ℚ :=
  match l with
  | [] => none
  | _ :: _ => some (qmean l)

/-- app.calc_metrics: summary statistics for one filtered, dropna-ed series.
maskCount is the number of index rows selected by the mask. -/
def calc_metrics (power : List (ℕ × ℚ)) (maskCount : ℕ) : Metrics :=
  match power with
  | [] => zeroMetrics
  | p :: rest =>
    let vals := (p :: rest).map Prod.snd
    let avg := qmean vals
    let maxv := qmax vals
    let minv := qminPos vals
    let weekdayAvg := ((omean (((p :: rest).filter
      (fun r => decide (dayOfWeek r.1 < 5))).map Prod.snd)).getD 0)
    let weekendAvg := ((omean (((p :: rest).filter
      (fun r => decide (5 ≤ dayOfWeek r.1))).map Prod.snd)).getD 0)
    { avgPower := avg,
      maxPower := maxv,
      minPower := minv,
      weekdayAvg := weekdayAvg,
      weekendAvg := weekendAvg,
      dataCoverage := if 0 < maskCount then 100 * (vals.length : ℚ) / maskCount else 0,
      loadFactor := if 0 < maxv then avg / maxv else 0,
      peakToAvg := if 0 < avg then maxv / avg else 0,
      totalEnergyKwh := (vals.map (fun v => v * (1 / 4))).sum,
      estimatedDailyKwh := avg * 24,
      estimatedMonthlyKwh := avg * 24 * 30 }

/-- app.get_summary: the absent-series branch models the unguarded
subscript power[mask] on a missing PowerSeries, which raises a TypeError
in the source (and surfaces as a server error), instead of yielding the
documented zero-valued result. -/
def getSummary (dfIndex : List ℕ) (pa pb : Option (List (ℕ × Option ℚ)))
    (m : ℕ → Bool) : Except String (Metrics × Metrics) :=
  match pa, pb with
  | some a, some b =>
    .ok (calc_metrics (dropna (applyMask m a)) ((dfIndex.filter m).length),
         calc_metrics (dropna (applyMask m b)) ((dfIndex.filter m).length))
  | _, _ => .error "TypeError: NoneType is not subscriptable"

/-- app.get_data_info coverage field: an absent series reports 0; a present
series reports the fraction of available readings, NaN (none) when the
series is empty, as the pandas mean of an empty boolean series is NaN. -/
def dataInfoCoverage (p : Option (List (ℕ × Option ℚ))) : Option ℚ :=
  match p with
  | none => some 0
  | some s =>
    if s.length = 0 then none
    else some (100 * ((s.countP (fun r => r.2.isSome) : ℚ) / s.length))

/-- The data-quality record of app.calc_quality. -/
structure Quality where
  totalPoints : ℕ
  validPoints : ℕ
  missingPoints : ℕ
  zeroPoints : ℕ
  nonZeroPoints : ℕ
  completeness : ℚ
  validity : ℚ
  hasValidReadings : Bool
deriving DecidableEq

/-- app.calc_quality on a filtered (not dropna-ed) series: boolean-sum
counts, with NaN comparing false against 0 under both the equality and the
strict positivity tests. -/
def calc_quality (power : List (ℕ × Option ℚ)) : Quality :=
  { totalPoints := power.length,
    validPoints := power.countP (fun r => r.2.isSome),
    missingPoints := power.countP (fun r => r.2.isNone),
    zeroPoints := power.countP (fun r => r.2 == some 0),
    nonZeroPoints := power.countP (fun r => match r.2 with
      | some v => decide (0 < v)
      | none => false),
    completeness := if 0 < power.length
      then (power.countP (fun r => r.2.isSome) : ℚ) / power.length * 100 else 0,
    validity := if 0 < power.length
      then ((power.countP (fun r => match r.2 with
        | some v => decide (0 < v)
        | none => false) : ℚ)) / power.length * 100 else 0,
    hasValidReadings := decide (0 < power.countP (fun r => match r.2 with
      | some v => decide (0 < v)
      | none => false)) }

/-! ### Cross-building comparison (app.get_comparison_metrics) -/

def seriesKeys (s : List (ℕ × ℚ)) : List ℕ := s.map Prod.fst

/-- First-occurrence deduplication, as performed by the pandas index
intersection (its result holds unique values). -/
def dedupAux (seen : List ℕ) : List ℕ → List ℕ
  | [] => []
  | t :: ts => if seen.contains t then dedupAux seen ts else t :: dedupAux (t :: seen) ts

def dedupKeys (l : List ℕ) : List ℕ := dedupAux [] l

/-- filtered_a.index.intersection(filtered_b.index): the unique timestamps of
the first filtered series that also occur in the second. -/
def commonIndex (fa fb : List (ℕ × ℚ)) : List ℕ :=
  (dedupKeys (seriesKeys fa)).filter (fun t => (seriesKeys fb).contains t)

/-- Selection of a series on the common index (series with unique timestamps;
the combined-series invariant of the spec): value of the first row at each
common timestamp. -/
def alignOn (common : List ℕ) (s : List (ℕ × ℚ)) : List (ℕ × ℚ) :=
  common.filterMap (fun t => (s.lookup t).map (fun v => (t, v)))

def alignedA (pa pb : List (ℕ × Option ℚ)) (m : ℕ → Bool) : List (ℕ × ℚ) :=
  alignOn (commonIndex (dropna (applyMask m pa)) (dropna (applyMask m pb)))
    (dropna (applyMask m pa))

def alignedB (pa pb : List (ℕ × Option ℚ)) (m : ℕ → Bool) : List (ℕ × ℚ) :=
  alignOn (commonIndex (dropna (applyMask m pa)) (dropna (applyMask m pb)))
    (dropna (applyMask m pb))

/-- Maximum of a list of values as pandas max: NaN (none) when empty. -/
def omax (l : List ℚ) : Option ℚ :=
  match l with
  | [] => none
  | a :: t => some (t.foldl max a)

/-- The comparison payload of app.get_comparison_metrics. Option fields model
values that are NaN when the aligned series are empty; the hourly-difference
block and the correlation value (treated separately below) are omitted,
string labels are rendered as booleans. -/
structure Comparison where
  avgA : Option ℚ
  avgB : Option ℚ
  diffAbs : Option ℚ
  diffPct : ℚ
  moreEfficientIsA : Bool
  peakA : Option ℚ
  peakB : Option ℚ
  peakDiffPct : ℚ
  loadFactorA : ℚ
  loadFactorB : ℚ
  winnerIsA : Bool
  aHigherCount : ℕ
  bHigherCount : ℕ
  aHigherPct : ℚ
  bHigherPct : ℚ
  totalPoints : ℕ
deriving DecidableEq

/-- app.get_comparison_metrics: the insufficient-data guard tests emptiness
of the two filtered series, before the index intersection; the remaining
metrics are computed over the aligned (possibly empty) pair. -/
def get_comparison (pa pb : List (ℕ × Option ℚ)) (m : ℕ → Bool) :
    Except String Comparison :=
  if (dropna (applyMask m pa)).length = 0 ∨ (dropna (applyMask m pb)).length = 0 then
    .error "Insufficient data for comparison"
  else
    let va := (alignedA pa pb m).map Prod.snd
    let vb := (alignedB pa pb m).map Prod.snd
    let avgA := omean va
    let avgB := omean vb
    let diffAbs := match avgA, avgB with
      | some x, some y => some (y - x)
      | _, _ => none
    let peakA := omax va
    let peakB := omax vb
    .ok {
      avgA := avgA,
      avgB := avgB,
      diffAbs := diffAbs,
      diffPct := match avgA, diffAbs with
        | some x, some d => if 0 < x then d / x * 100 else 0
        | _, _ => 0,
      moreEfficientIsA := match avgA, avgB with
        | some x, some y => decide (x < y)
        | _, _ => false,
      peakA := peakA,
      peakB := peakB,
      peakDiffPct := match peakA, peakB with
        | some x, some y => if 0 < x then (y - x) / x * 100 else 0
        | _, _ => 0,
      loadFactorA := match avgA, peakA with
        | some x, some y => if 0 < y then x / y else 0
        | _, _ => 0,
      loadFactorB := match avgB, peakB with
        | some x, some y => if 0 < y then x / y else 0
        | _, _ => 0,
      winnerIsA := match avgA, peakA, avgB, peakB with
        | some xa, some ya, some xb, some yb =>
          decide ((if 0 < yb then xb / yb else 0) < (if 0 < ya then xa / ya else 0))
        | _, _, _, _ => false,
      aHigherCount := ((alignedA pa pb m).zip (alignedB pa pb m)).countP
        (fun r => decide (r.2.2 < r.1.2)),
      bHigherCount := ((alignedA pa pb m).zip (alignedB pa pb m)).countP
        (fun r => decide (r.1.2 < r.2.2)),
      aHigherPct := if 0 < (alignedA pa pb m).length
        then (((alignedA pa pb m).zip (alignedB pa pb m)).countP
          (fun r => decide (r.2.2 < r.1.2)) : ℚ) / (alignedA pa pb m).length * 100
        else 0,
      bHigherPct := if 0 < (alignedB pa pb m).length
        then (((alignedA pa pb m).zip (alignedB pa pb m)).countP
          (fun r => decide (r.1.2 < r.2.2)) : ℚ) / (alignedB pa pb m).length * 100
        else 0,
      totalPoints := (alignedA pa pb m).length }

def exceptOk {ε β : Type} : Except ε β → Bool
  | .ok _ => true
  | .error _ => false

/-- Centered second moment of a list around mu. -/
def sumSq (l : List ℚ) (μ : ℚ) : ℚ := (l.map (fun v => (v - μ) ^ 2)).sum

/-- Centered cross moment of two zipped lists. -/
def sumCross (l₁ l₂ : List ℚ) (μ₁ μ₂ : ℚ) : ℚ :=
  ((l₁.zip l₂).map (fun p => (p.1 - μ₁) * (p.2 - μ₂))).sum

/-- pandas Series.corr (Pearson): NaN (none) when either centered second
moment vanishes (constant or empty input), otherwise the usual quotient. -/
noncomputable def pearsonCorr (xs ys : List ℚ) : Option ℝ :=
  if sumSq xs (qmean xs) * sumSq ys (qmean ys) = 0 then none
  else some ((sumCross xs ys (qmean xs) (qmean ys) : ℝ) /
    Real.sqrt ((sumSq xs (qmean xs) * sumSq ys (qmean ys) : ℚ) : ℝ))

/-- The correlation field of app.get_comparison_metrics: pandas corr of the
aligned pair when more than one aligned point exists, 0 otherwise. -/
noncomputable def comparisonCorrelation (pa pb : List (ℕ × Option ℚ))
    (m : ℕ → Bool) : Option ℝ :=
  if 1 < (alignedA pa pb m).length then
    pearsonCorr ((alignedA pa pb m).map Prod.snd) ((alignedB pa pb m).map Prod.snd)
  else some 0

/-! ### Settling the engine claims -/

lemma quality_counts_aux (l : List (ℕ × Option ℚ)) :
    l.length = l.countP (fun r => r.2.isSome) + l.countP (fun r => r.2.isNone) ∧
    l.countP (fun r => r.2 == some 0) + l.countP (fun r => match r.2 with
      | some v => decide (0 < v)
      | none => false)
      ≤ l.countP (fun r => r.2.isSome) ∧
    ((∃ r ∈ l, ∃ q : ℚ, r.2 = some q ∧ q < 0) →
      l.countP (fun r => r.2 == some 0) + l.countP (fun r => match r.2 with
        | some v => decide (0 < v)
        | none => false)
        < l.countP (fun r => r.2.isSome)) := by
  induction l with
  | nil =>
    refine ⟨rfl, le_refl _, ?_⟩
    rintro ⟨r, hr, _⟩
    simp at hr
  | cons r l ih =>
    rcases ih with ⟨ih1, ih2, ih3⟩
    obtain ⟨t, o⟩ := r
    cases o with
    | none =>
      refine ⟨?_, ?_, ?_⟩
      · simp only [List.countP_cons, List.length_cons]
        simp
        omega
      · simp only [List.countP_cons]
        simp
        exact ih2
      · rintro ⟨r, hr, q, hq, hneg⟩
        rcases List.mem_cons.mp hr with rfl | hmem
        · simp at hq
        · simp only [List.countP_cons]
          simp
          exact ih3 ⟨r, hmem, q, hq, hneg⟩
    | some v =>
      have hz : ((some v == some (0 : ℚ)) = true) ↔ v = 0 := by simp
      refine ⟨?_, ?_, ?_⟩
      · simp only [List.countP_cons, List.length_cons]
        simp
        omega
      · simp only [List.countP_cons]
        by_cases hv0 : v = 0
        · subst hv0
          simp
          omega
        · by_cases hvp : 0 < v
          · have : ¬ (v = 0) := hv0
            simp [this, hvp]
            omega
          · simp [hv0, hvp]
            omega
      · rintro ⟨r, hr, q, hq, hneg⟩
        rcases List.mem_cons.mp hr with rfl | hmem
        · simp only [List.countP_cons]
          obtain rfl : v = q := by simpa using hq
          have hv0 : ¬ (v = 0) := by intro h; rw [h] at hneg; exact absurd hneg (by norm_num)
          have hvp : ¬ (0 < v) := by intro h; exact absurd (h.trans hneg) (by norm_num)
          simp [hv0, hvp]
          omega
        · have hlt := ih3 ⟨r, hmem, q, hq, hneg⟩
          simp only [List.countP_cons]
          by_cases hv0 : v = 0
          · subst hv0
            simp
            omega
          · by_cases hvp : 0 < v
            · simp [hv0, hvp]
              omega
            · simp [hv0, hvp]
              omega

/-- C10: in every filtered window the data-quality counts satisfy
totalPoints = validPoints + missingPoints and
zeroPoints + nonZeroPoints LE validPoints, with strict inequality as soon as
a negative reading is present (a negative value counts as valid but as
neither zero nor non-zero). -/
theorem calc_quality_counts (power : List (ℕ × Option ℚ)) :
    (calc_quality power).totalPoints
      = (calc_quality power).validPoints + (calc_quality power).missingPoints ∧
    (calc_quality power).zeroPoints + (calc_quality power).nonZeroPoints
      ≤ (calc_quality power).validPoints ∧
    ((∃ r ∈ power, ∃ q : ℚ, r.2 = some q ∧ q < 0) →
      (calc_quality power).zeroPoints + (calc_quality power).nonZeroPoints
        < (calc_quality power).validPoints) :=
  quality_counts_aux power

def c10Sample : List (ℕ × Option ℚ) := [(0, some (-1)), (1, some 0), (2, none)]

/-- Witness for C10 at a window holding a negative reading. -/
theorem calc_quality_counts_witness :
    (calc_quality c10Sample).zeroPoints + (calc_quality c10Sample).nonZeroPoints
      < (calc_quality c10Sample).validPoints :=
  (calc_quality_counts c10Sample).2.2
    ⟨(0, some (-1)), by simp [c10Sample], -1, rfl, by norm_num⟩

/-- C3 is false as stated: the summary operation applied to a building whose
PowerSeries is absent fails (the source subscripts None with the mask and
raises), instead of returning the zero-valued result. -/
theorem getSummary_absent_fails :
    getSummary [0] none (some [(0, some 1)]) (fun _ => true)
      = .error "TypeError: NoneType is not subscriptable" := rfl

/-- C3 amended: the filtered aggregation operations fail on an absent
PowerSeries; with both series present they always succeed, returning the
zero-valued record when the filtered series is empty; only the data-info
coverage field treats an absent series gracefully, as 0. -/
theorem getSummary_absent_behavior (dfIndex : List ℕ)
    (p : Option (List (ℕ × Option ℚ))) (a b : List (ℕ × Option ℚ)) (m : ℕ → Bool) :
    exceptOk (getSummary dfIndex none p m) = false ∧
    exceptOk (getSummary dfIndex p none m) = false ∧
    exceptOk (getSummary dfIndex (some a) (some b) m) = true ∧
    (dropna (applyMask m a) = [] →
      getSummary dfIndex (some a) (some b) m
        = .ok (zeroMetrics,
            calc_metrics (dropna (applyMask m b)) ((dfIndex.filter m).length))) ∧
    dataInfoCoverage none = some 0 := by
  refine ⟨?_, ?_, rfl, ?_, rfl⟩
  · cases p <;> rfl
  · cases p <;> rfl
  · intro h
    show Except.ok (calc_metrics (dropna (applyMask m a)) ((dfIndex.filter m).length),
        calc_metrics (dropna (applyMask m b)) ((dfIndex.filter m).length))
      = Except.ok (zeroMetrics,
          calc_metrics (dropna (applyMask m b)) ((dfIndex.filter m).length))
    rw [h]
    rfl

/-- Witness for C3 amended: an all-missing present series yields the zero
record. -/
theorem getSummary_absent_behavior_witness :
    dropna (applyMask (fun _ => true) [(0, (none : Option ℚ))]) = [] ∧
    getSummary [0] (some [(0, none)]) (some [(0, none)]) (fun _ => true)
      = .ok (zeroMetrics,
          calc_metrics (dropna (applyMask (fun _ => true) [(0, none)]))
            (([0].filter (fun _ => true)).length)) :=
  ⟨rfl, (getSummary_absent_behavior [0] none [(0, none)] [(0, none)]
    (fun _ => true)).2.2.2.1 rfl⟩

/-- C2 is false as stated: two non-empty filtered series with no overlapping
timestamps pass the insufficient-data guard (which tests emptiness before
the intersection) and produce a computed result. -/
theorem comparison_disjoint_not_insufficient :
    exceptOk (get_comparison [(0, some 1)] [(86400, some 2)] (fun _ => true)) = true ∧
    alignedA [(0, some 1)] [(86400, some 2)] (fun _ => true) = [] :=
  ⟨rfl, rfl⟩

/-- C2 amended: the comparison yields the insufficient-data condition exactly
when one of the two sides is empty after filtering and dropna, before the
intersection of the two time indexes; a disjoint non-empty pair computes a
result. -/
theorem comparison_insufficient_iff (pa pb : List (ℕ × Option ℚ)) (m : ℕ → Bool) :
    exceptOk (get_comparison pa pb m) = false ↔
      dropna (applyMask m pa) = [] ∨ dropna (applyMask m pb) = [] := by
  unfold get_comparison
  by_cases h : (dropna (applyMask m pa)).length = 0 ∨ (dropna (applyMask m pb)).length = 0
  · rw [if_pos h]
    simp only [exceptOk, true_iff]
    rcases h with h | h
    · exact Or.inl (List.length_eq_zero.mp h)
    · exact Or.inr (List.length_eq_zero.mp h)
  · rw [if_neg h]
    simp only [exceptOk, Bool.true_eq_false, false_iff]
    push_neg at h
    rintro (he | he)
    · exact h.1 (by rw [he]; rfl)
    · exact h.2 (by rw [he]; rfl)

def c7Sample : List (ℕ × Option ℚ) := [(0, some 10), (3600, some 10)]

/-- C7 is false as stated: comparing a constant series with itself (two
aligned points, zero variance) makes the Pearson correlation a NaN in the
output, not 0, although its denominator vanishes. -/
theorem correlation_nan_on_constant :
    comparisonCorrelation c7Sample c7Sample (fun _ => true) = none := by
  have hva : (alignedA c7Sample c7Sample (fun _ => true)).map Prod.snd
      = [(10 : ℚ), 10] := rfl
  have hvb : (alignedB c7Sample c7Sample (fun _ => true)).map Prod.snd
      = [(10 : ℚ), 10] := rfl
  have hlen : 1 < (alignedA c7Sample c7Sample (fun _ => true)).length := by decide
  unfold comparisonCorrelation
  rw [if_pos hlen, hva, hvb]
  have hq : qmean [(10 : ℚ), 10] = 10 := by
    norm_num [qmean]
  have hss : sumSq [(10 : ℚ), 10] (qmean [(10 : ℚ), 10]) = 0 := by
    rw [hq]
    norm_num [sumSq]
  unfold pearsonCorr
  rw [if_pos (by rw [hss]; ring)]

/-- C7 amended: the guarded engine ratios are total and yield 0 on a zero or
undefined denominator (load factor for a non-positive maximum, peak-to-average
for a non-positive mean, coverage for an empty mask, completeness and validity
for an empty window, correlation for fewer than two aligned points); the
cross-building correlation, however, is NaN exactly when more than one aligned
point exists and a centered second moment vanishes. -/
theorem ratio_guards :
    (∀ (power : List (ℕ × ℚ)) (mc : ℕ),
      ((calc_metrics power mc).maxPower ≤ 0 → (calc_metrics power mc).loadFactor = 0) ∧
      ((calc_metrics power mc).avgPower ≤ 0 → (calc_metrics power mc).peakToAvg = 0) ∧
      (mc = 0 → (calc_metrics power mc).dataCoverage = 0)) ∧
    (∀ s : List (ℕ × Option ℚ), s.length = 0 →
      (calc_quality s).completeness = 0 ∧ (calc_quality s).validity = 0) ∧
    (∀ (pa pb : List (ℕ × Option ℚ)) (m : ℕ → Bool),
      ((alignedA pa pb m).length ≤ 1 → comparisonCorrelation pa pb m = some 0) ∧
      (comparisonCorrelation pa pb m = none ↔
        1 < (alignedA pa pb m).length ∧
        sumSq ((alignedA pa pb m).map Prod.snd)
            (qmean ((alignedA pa pb m).map Prod.snd)) *
          sumSq ((alignedB pa pb m).map Prod.snd)
            (qmean ((alignedB pa pb m).map Prod.snd)) = 0)) := by
  refine ⟨?_, ?_, ?_⟩
  · intro power mc
    cases power with
    | nil => exact ⟨fun _ => rfl, fun _ => rfl, fun _ => rfl⟩
    | cons p rest =>
      refine ⟨?_, ?_, ?_⟩
      · intro h
        have h' : qmax ((p :: rest).map Prod.snd) ≤ 0 := h
        show (if 0 < qmax ((p :: rest).map Prod.snd)
            then qmean ((p :: rest).map Prod.snd) / qmax ((p :: rest).map Prod.snd)
            else 0) = 0
        rw [if_neg (not_lt.mpr h')]
      · intro h
        have h' : qmean ((p :: rest).map Prod.snd) ≤ 0 := h
        show (if 0 < qmean ((p :: rest).map Prod.snd)
            then qmax ((p :: rest).map Prod.snd) / qmean ((p :: rest).map Prod.snd)
            else 0) = 0
        rw [if_neg (not_lt.mpr h')]
      · intro h
        subst h
        show (if 0 < (0 : ℕ)
            then 100 * (((p :: rest).map Prod.snd).length : ℚ) / ((0 : ℕ) : ℚ)
            else 0) = 0
        rw [if_neg (lt_irrefl 0)]
  · intro s hs
    constructor
    · show (if 0 < s.length
          then (s.countP (fun r => r.2.isSome) : ℚ) / s.length * 100 else 0) = 0
      rw [hs, if_neg (lt_irrefl 0)]
    · show (if 0 < s.length
          then ((s.countP (fun r => match r.2 with
            | some v => decide (0 < v)
            | none => false) : ℚ)) / s.length * 100 else 0) = 0
      rw [hs, if_neg (lt_irrefl 0)]
  · intro pa pb m
    constructor
    · intro h
      unfold comparisonCorrelation
      rw [if_neg (not_lt.mpr h)]
    · unfold comparisonCorrelation pearsonCorr
      by_cases hlen : 1 < (alignedA pa pb m).length
      · rw [if_pos hlen]
        by_cases hss : sumSq ((alignedA pa pb m).map Prod.snd)
            (qmean ((alignedA pa pb m).map Prod.snd)) *
          sumSq ((alignedB pa pb m).map Prod.snd)
            (qmean ((alignedB pa pb m).map Prod.snd)) = 0
        · rw [if_pos hss]
          simp [hlen, hss]
        · rw [if_neg hss]
          simp [hlen, hss]
      · rw [if_neg hlen]
        simp [hlen]

/-- Witness for C7 amended at empty inputs. -/
theorem ratio_guards_witness :
    (calc_metrics ([] : List (ℕ × ℚ)) 0).maxPower ≤ 0 ∧
    (calc_metrics ([] : List (ℕ × ℚ)) 0).loadFactor = 0 ∧
    (alignedA [] [] (fun _ => true)).length ≤ 1 ∧
    comparisonCorrelation [] [] (fun _ => true) = some 0 :=
  ⟨by decide, (ratio_guards.1 [] 0).1 (by decide),
   by decide, (ratio_guards.2.2 [] [] (fun _ => true)).1 (by decide)⟩

/-! ### The flat-file cache fast path (claim C8) -/

/-- The query-relevant artifacts held by the cache: the combined time index
and the two cleaned power series (the queries consult the combined frame only
through its index). -/
structure CacheView where
  index : List ℕ
  pa : List (Option ℚ)
  pb : List (Option ℚ)
deriving DecidableEq

/-- Modelled from the spec: the repository contains no writer for the files
cache/tour_a_processed.csv and cache/tour_b_processed.csv that load_all_data
reads (data_exploration.py saves a different artifact elsewhere); per the
spec a prior run persists each cleaned PowerSeries to a flat file keyed by
timestamp with a single value column. -/
def persistSeries (index : List ℕ) (p : List (Option ℚ)) : List (ℕ × Option ℚ) :=
  index.zip p

/-- The artifacts produced by a full pipeline rebuild: the combined index,
and the two power columns passed through the outlier cleaner. -/
def fullArtifacts (index : List ℕ) (colA colB : List (Option ℚ)) : CacheView :=
  { index := index, pa := clean_power_data colA, pb := clean_power_data colB }

/-- The flat-file fast path of load_all_data: read back the two persisted
series and reconstitute the combined frame by column concatenation; pandas
concat along columns keeps the shared index when the two indexes coincide
(none models its refusal to align distinct non-unique indexes). -/
def cacheLoad (fa fb : List (ℕ × Option ℚ)) : Option CacheView :=
  if fa.map Prod.fst = fb.map Prod.fst then
    some { index := fa.map Prod.fst, pa := fa.map Prod.snd, pb := fb.map Prod.snd }
  else none

lemma clean_power_data_length (s : List (Option ℚ)) :
    (clean_power_data s).length = s.length := by
  unfold clean_power_data
  split <;> simp

/-- C8: reloading the two persisted cleaned series reconstitutes exactly the
artifacts of the full rebuild, hence every query operation (an arbitrary
function of the cached artifacts and the request filter) returns the same
result along the fast path as after a full rebuild. -/
theorem cache_fastpath_equiv (index : List ℕ) (a b : List (Option ℚ))
    (ha : a.length = index.length) (hb : b.length = index.length) :
    cacheLoad (persistSeries index (fullArtifacts index a b).pa)
        (persistSeries index (fullArtifacts index a b).pb)
      = some (fullArtifacts index a b) ∧
    ∀ (β : Type) (query : CacheView → β),
      (cacheLoad (persistSeries index (fullArtifacts index a b).pa)
          (persistSeries index (fullArtifacts index a b).pb)).map query
        = some (query (fullArtifacts index a b)) := by
  have hla : index.length ≤ (clean_power_data a).length := by
    rw [clean_power_data_length, ha]
  have hlb : index.length ≤ (clean_power_data b).length := by
    rw [clean_power_data_length, hb]
  have hfa : (persistSeries index (clean_power_data a)).map Prod.fst = index :=
    List.map_fst_zip _ _ hla
  have hfb : (persistSeries index (clean_power_data b)).map Prod.fst = index :=
    List.map_fst_zip _ _ hlb
  have hsa : (persistSeries index (clean_power_data a)).map Prod.snd
      = clean_power_data a :=
    List.map_snd_zip _ _ (by rw [clean_power_data_length, ha])
  have hsb : (persistSeries index (clean_power_data b)).map Prod.snd
      = clean_power_data b :=
    List.map_snd_zip _ _ (by rw [clean_power_data_length, hb])
  have hmain : cacheLoad (persistSeries index (fullArtifacts index a b).pa)
        (persistSeries index (fullArtifacts index a b).pb)
      = some (fullArtifacts index a b) := by
    show cacheLoad (persistSeries index (clean_power_data a))
        (persistSeries index (clean_power_data b))
      = some (fullArtifacts index a b)
    unfold cacheLoad
    rw [hfa, hfb, if_pos rfl, hsa, hsb]
    rfl
  refine ⟨hmain, ?_⟩
  intro β query
  rw [hmain]
  rfl

def c8Index : List ℕ := [0, 1]

def c8ColA : List (Option ℚ) := [some 1, none]

def c8ColB : List (Option ℚ) := [none, some 2]

/-- Witness for C8 at a concrete two-row dataset. -/
theorem cache_fastpath_equiv_witness :
    c8ColA.length = c8Index.length ∧ c8ColB.length = c8Index.length ∧
    cacheLoad (persistSeries c8Index (fullArtifacts c8Index c8ColA c8ColB).pa)
        (persistSeries c8Index (fullArtifacts c8Index c8ColA c8ColB).pb)
      = some (fullArtifacts c8Index c8ColA c8ColB) :=
  ⟨rfl, rfl, (cache_fastpath_equiv c8Index c8ColA c8ColB rfl rfl).1⟩

end TwoBlock
